import Mathlib

/-!
Verification of the ThreadGenie image pipeline and edit-session state
machine, shallowly embedded from the TypeScript source.

Pixel engine: src/utils/imageUtils.ts (resizeImage, removeBackground).
Edit session: the App component (handleImageSelect,
handleEmbroideryTransform, handleMagicEdit, handleUpscale, updateHistory,
handleUndo, handleReset) plus the disabled predicates of the rendered
controls. Asynchronous sub-steps (the generative client, the resize and
the background-removal passes at session level) are embedded as oracle
outcomes of type `Except Unit String`; each handler is a total function
of the pre-state and those outcomes, which reflects that the source
wraps every sub-step in try/catch so no exception crosses the component
boundary.
-/

namespace ThreadGenie

/-! ## Pixel engine (src/utils/imageUtils.ts) -/

/-- One RGBA entry of a canvas ImageData buffer; each channel is an 8-bit
value carried as a natural number. -/
structure Pixel where
  r : Nat
  g : Nat
  b : Nat
  a : Nat
  deriving DecidableEq, Repr

/-- Decoded raster data: dimensions plus the flat pixel array. -/
structure ImageBuffer where
  width : Nat
  height : Nat
  data : List Pixel
  deriving DecidableEq, Repr

/-- Squared Euclidean RGB distance between a pixel and a target color.
The source computes `Math.sqrt` of this sum of squares and tests
`diff < tolerance`; for a natural tolerance `t` and a natural sum of
squares `d2` this is equivalent to `d2 < t ^ 2` (the square root is
monotone and exact on perfect squares), so the embedding compares
squares and avoids real arithmetic. Alpha does not enter the distance. -/
def dist2 (p : Pixel) (tr tg tb : Nat) : Int :=
  ((p.r : Int) - tr) ^ 2 + ((p.g : Int) - tg) ^ 2 + ((p.b : Int) - tb) ^ 2

/-- Per-pixel body of the `removeBackground` loop (imageUtils.ts lines
82-97): when the distance to the target color is below the tolerance the
alpha channel is set to 0, otherwise the pixel is left untouched. -/
def removeBackgroundPixel (tol tr tg tb : Nat) (p : Pixel) : Pixel :=
  if dist2 p tr tg tb < (tol : Int) ^ 2 then { p with a := 0 } else p

/-- The pixel pass of `removeBackground`, generalized over the target
color, which the source fixes to white with three constants at lines
78-80. Dimensions are copied from the input canvas. -/
def extractTransparency (img : ImageBuffer) (tr tg tb tol : Nat) : ImageBuffer :=
  { img with data := img.data.map (removeBackgroundPixel tol tr tg tb) }

/-- `removeBackground` from imageUtils.ts: target color white
(255, 255, 255), tolerance defaulting to 30. -/
def removeBackground (img : ImageBuffer) (tol : Nat := 30) : ImageBuffer :=
  extractTransparency img 255 255 255 tol

/-- Output dimensions of `resizeImage` (imageUtils.ts lines 14-32).
The JS code scales the longer side down to `maxD` and the shorter side
by the same factor in floating point; assigning the result to
`canvas.width` and `canvas.height` truncates toward zero, which for the
nonnegative exact value is the floor, i.e. natural division here. -/
def resizeImageDims (w h maxD : Nat) : Nat × Nat :=
  if h < w then
    if maxD < w then (maxD, h * maxD / w) else (w, h)
  else
    if maxD < h then (w * maxD / h, maxD) else (w, h)

/-- `resizeImage` always re-encodes as JPEG: imageUtils.ts line 42 sets
the constant that is both used for encoding and returned to the caller. -/
def resizeImageMimeType : String := "image/jpeg"

/-! ## Edit session (the App component) -/

/-- The processing status union from src/types.ts. -/
inductive ProcessingStatus where
  | idle
  | uploading
  | processing
  | removing_background
  | upscaling
  | complete
  | error
  deriving DecidableEq, Repr

/-- The state hooks of the App component. `errorMsg` embeds the `error`
string state (null = none); data URLs and base64 payloads are strings. -/
structure AppState where
  status : ProcessingStatus
  originalImage : Option String
  currentImage : Option String
  previewImage : Option String
  editPrompt : String
  mimeType : String
  errorMsg : Option String
  history : List String
  deriving DecidableEq, Repr

/-- `editPrompt.trim()`: strip whitespace from both ends, written over
the character list so that it evaluates inside the kernel. -/
def jsTrim (s : String) : String :=
  ⟨((s.data.dropWhile Char.isWhitespace).reverse.dropWhile Char.isWhitespace).reverse⟩

/-- `dataUrl.split(',')[1]`: the segment of the string between the first
and the second comma. -/
def splitComma1 (s : String) : String :=
  ⟨((s.data.dropWhile (· ≠ ',')).drop 1).takeWhile (· ≠ ',')⟩

/-- Building a data URL from a MIME type and a base64 payload, as the
`data:${mime};base64,${b64}` template literals in the source do. -/
def mkDataUrl (mime b64 : String) : String :=
  "data:" ++ mime ++ ";base64," ++ b64

def uploadErrorMsg : String := "Failed to process image. Please try another file."

def embroideryErrorMsg : String :=
  "Something went wrong during the transformation. Please try again."

def magicEditErrorMsg : String :=
  "Failed to edit image. The prompt might be against safety policies."

def upscaleErrorMsg : String :=
  "Failed to upscale image. Ensure you have a valid API key selected for the Pro model."

/-- Result of running one handler: the final component state plus the
list of calls dispatched to the generative client, each recorded as the
(base64 payload, MIME type) pair passed to the service function. -/
structure OpResult where
  state : AppState
  genCalls : List (String × String)
  deriving DecidableEq, Repr

/-- `handleImageSelect` (beginSession): the outcome of the `resizeImage`
call is an oracle argument holding the base64 payload on success (the
MIME type it returns is always `resizeImageMimeType`, imageUtils.ts line
42). On success the session is seeded; on failure only status and the
error message change. -/
def handleImageSelect (s : AppState) (res : Except Unit String) : AppState :=
  match res with
  | .error _ => { s with status := .error, errorMsg := some uploadErrorMsg }
  | .ok b64 =>
    let dataUrl := mkDataUrl resizeImageMimeType b64
    { s with
      status := .idle
      errorMsg := none
      originalImage := some b64
      previewImage := some dataUrl
      currentImage := some dataUrl
      mimeType := resizeImageMimeType
      history := [dataUrl] }

/-- `handleEmbroideryTransform` (transformStyle): the guard is JS
truthiness of `currentImage` and `originalImage` only; the oracle `gen`
is the outcome of `generateEmbroidery` and `rb` the outcome of the
subsequent `removeBackground` call. Failures of either are caught and
mapped to the error status; history is appended only after both
succeed. -/
def handleEmbroideryTransform (s : AppState) (gen rb : Except Unit String) : OpResult :=
  match s.currentImage, s.originalImage with
  | some cur, some orig =>
    if cur = "" ∨ orig = "" then ⟨s, []⟩
    else
      match gen with
      | .error _ =>
        ⟨{ s with status := .error, errorMsg := some embroideryErrorMsg },
          [(splitComma1 cur, s.mimeType)]⟩
      | .ok _ =>
        match rb with
        | .error _ =>
          ⟨{ s with status := .error, errorMsg := some embroideryErrorMsg },
            [(splitComma1 cur, s.mimeType)]⟩
        | .ok transparentDataUrl =>
          ⟨{ s with
              history := s.history ++ [transparentDataUrl]
              currentImage := some transparentDataUrl
              status := .complete
              errorMsg := none },
            [(splitComma1 cur, s.mimeType)]⟩
  | _, _ => ⟨s, []⟩

/-- `handleMagicEdit` (transformWithPrompt): rejected when `currentImage`
is falsy or the trimmed prompt is empty; otherwise one `editImage` call,
append on success (also clearing the prompt), error status on failure. -/
def handleMagicEdit (s : AppState) (edit : Except Unit String) : OpResult :=
  match s.currentImage with
  | some cur =>
    if cur = "" ∨ jsTrim s.editPrompt = "" then ⟨s, []⟩
    else
      match edit with
      | .error _ =>
        ⟨{ s with status := .error, errorMsg := some magicEditErrorMsg },
          [(splitComma1 cur, s.mimeType)]⟩
      | .ok generated =>
        let url := mkDataUrl "image/jpeg" generated
        ⟨{ s with
            history := s.history ++ [url]
            currentImage := some url
            status := .complete
            errorMsg := none
            editPrompt := "" },
          [(splitComma1 cur, s.mimeType)]⟩
  | none => ⟨s, []⟩

/-- `handleUpscale` (upscale): the guard is truthiness of `currentImage`;
the credential-gate consultation touches no session state and is elided;
one `upscaleImage` call, append on success, error status on failure. -/
def handleUpscale (s : AppState) (up : Except Unit String) : OpResult :=
  match s.currentImage with
  | some cur =>
    if cur = "" then ⟨s, []⟩
    else
      match up with
      | .error _ =>
        ⟨{ s with status := .error, errorMsg := some upscaleErrorMsg },
          [(splitComma1 cur, s.mimeType)]⟩
      | .ok upscaled =>
        let url := mkDataUrl "image/jpeg" upscaled
        ⟨{ s with
            history := s.history ++ [url]
            currentImage := some url
            status := .complete
            errorMsg := none },
          [(splitComma1 cur, s.mimeType)]⟩
  | none => ⟨s, []⟩

/-- `handleUndo`: drops the last history entry when more than one is
present, pointing `currentImage` at the new last entry; otherwise a
no-op. Status is never touched. -/
def handleUndo (s : AppState) : AppState :=
  if 1 < s.history.length then
    { s with
      history := s.history.dropLast
      currentImage := s.history.dropLast.getLast? }
  else s

/-- `handleReset`: guarded by JS truthiness of `originalImage` and
`mimeType`; rebuilds the pristine data URL from the stored original and
MIME type and makes it the whole history. -/
def handleReset (s : AppState) : AppState :=
  match s.originalImage with
  | some orig =>
    if orig = "" ∨ s.mimeType = "" then s
    else
      let initialUrl := mkDataUrl s.mimeType orig
      { s with history := [initialUrl], currentImage := some initialUrl }
  | none => s

deriving instance DecidableEq for Except

/-- One user-triggered operation together with the outcomes of the
asynchronous sub-steps it performs. `typePrompt` is the controlled text
input feeding `editPrompt`. -/
inductive Op where
  | select (res : Except Unit String)
  | embroidery (gen rb : Except Unit String)
  | magicEdit (res : Except Unit String)
  | upscale (res : Except Unit String)
  | undo
  | reset
  | typePrompt (t : String)
  deriving DecidableEq, Repr

/-- Whether the operation is the upload (beginSession) operation. -/
def Op.isSelect : Op → Bool
  | .select _ => true
  | _ => false

/-- The state reached after one operation. -/
def step (s : AppState) : Op → AppState
  | .select r => handleImageSelect s r
  | .embroidery g rb => (handleEmbroideryTransform s g rb).state
  | .magicEdit r => (handleMagicEdit s r).state
  | .upscale r => (handleUpscale s r).state
  | .undo => handleUndo s
  | .reset => handleReset s
  | .typePrompt t => { s with editPrompt := t }

/-- The generative-client calls dispatched by one operation. -/
def opGenCalls (s : AppState) : Op → List (String × String)
  | .embroidery g rb => (handleEmbroideryTransform s g rb).genCalls
  | .magicEdit r => (handleMagicEdit s r).genCalls
  | .upscale r => (handleUpscale s r).genCalls
  | _ => []

/-- `status !== 'idle' && status !== 'complete'`: the disabled condition
shared by the embroidery button, the upscale button, the magic-edit text
input and the undo button in the rendered markup. -/
def gateClosed (s : AppState) : Bool :=
  !(s.status == ProcessingStatus.idle) && !(s.status == ProcessingStatus.complete)

/-- The magic-edit submit button additionally requires a non-empty
trimmed prompt: `disabled={!editPrompt.trim() || (status gate)}`. -/
def magicEditDisabled (s : AppState) : Bool :=
  (jsTrim s.editPrompt == "") || gateClosed s

/-- The undo button is rendered only when `history.length > 1` and is
enabled only when the status gate is open. -/
def undoInvocable (s : AppState) : Bool :=
  decide (1 < s.history.length) && !(gateClosed s)

/-- The reset button: `disabled={history.length <= 1 || (status gate)}`. -/
def resetInvocable (s : AppState) : Bool :=
  !(decide (s.history.length ≤ 1) || gateClosed s)

/-- Session invariant: history is non-empty and `currentImage` is its
last element. -/
def historyInv (s : AppState) : Prop :=
  s.history ≠ [] ∧ s.currentImage = s.history.getLast?

/-! ## Concrete states used by witnesses and counterexamples -/

/-- The initial hook values of the App component before any upload. -/
def blankState : AppState :=
  { status := .idle
    originalImage := none
    currentImage := none
    previewImage := none
    editPrompt := ""
    mimeType := "image/jpeg"
    errorMsg := none
    history := [] }

def uploadedUrl : String := mkDataUrl "image/jpeg" "QUJD"

def pngUrl : String := mkDataUrl "image/png" "REVG"

/-- A session after one successful upload and one successful embroidery
pass: two history entries, status complete, a pending prompt typed in. -/
def sessionState : AppState :=
  { status := .complete
    originalImage := some "QUJD"
    currentImage := some pngUrl
    previewImage := some uploadedUrl
    editPrompt := "add stars"
    mimeType := "image/jpeg"
    errorMsg := none
    history := [uploadedUrl, pngUrl] }

/-- The same session mid-flight: status is `processing`, outside the
{idle, complete} gate. -/
def busyState : AppState :=
  { sessionState with status := .processing }

/-- A gate-closed state with no session image at all. -/
def noImageState : AppState :=
  { blankState with status := .processing }

/-- A ready session whose prompt is whitespace only. -/
def emptyPromptState : AppState :=
  { sessionState with editPrompt := "   " }

/-! ## Pixel-engine theorems -/

/-- C4: every pixel of the `extractTransparency` output whose squared RGB
distance to the target is at least the squared tolerance is byte-identical
to the input pixel on R, G, B and alpha; every pixel with squared distance
strictly below it has alpha set to 0 with R, G, B unchanged; the output
has the same width, height and pixel count as the input, so only the
alpha channel is ever modified. -/
theorem C4_extractTransparency_pixels (img : ImageBuffer) (tr tg tb tol i : Nat)
    (p : Pixel) (hp : img.data[i]? = some p) :
    (extractTransparency img tr tg tb tol).width = img.width ∧
    (extractTransparency img tr tg tb tol).height = img.height ∧
    (extractTransparency img tr tg tb tol).data.length = img.data.length ∧
    ((tol : Int) ^ 2 ≤ dist2 p tr tg tb →
      (extractTransparency img tr tg tb tol).data[i]? = some p) ∧
    (dist2 p tr tg tb < (tol : Int) ^ 2 →
      (extractTransparency img tr tg tb tol).data[i]? = some { p with a := 0 }) := by
  refine ⟨rfl, rfl, by simp [extractTransparency], ?_, ?_⟩
  · intro hfar
    simp only [extractTransparency, List.getElem?_map, hp, Option.map_some, Option.map_some',
      removeBackgroundPixel, if_neg (not_lt.mpr hfar)]
  · intro hnear
    simp only [extractTransparency, List.getElem?_map, hp, Option.map_some, Option.map_some',
      removeBackgroundPixel, if_pos hnear]

/-- Witness for C4 at a concrete 1x1 image and the default white target
with tolerance 30. -/
theorem C4_extractTransparency_pixels_witness :
    (extractTransparency ⟨1, 1, [⟨10, 20, 30, 255⟩]⟩ 255 255 255 30).width = 1 ∧
    (extractTransparency ⟨1, 1, [⟨10, 20, 30, 255⟩]⟩ 255 255 255 30).height = 1 ∧
    (extractTransparency ⟨1, 1, [⟨10, 20, 30, 255⟩]⟩ 255 255 255 30).data.length =
      (⟨1, 1, [⟨10, 20, 30, 255⟩]⟩ : ImageBuffer).data.length ∧
    ((30 : Int) ^ 2 ≤ dist2 ⟨10, 20, 30, 255⟩ 255 255 255 →
      (extractTransparency ⟨1, 1, [⟨10, 20, 30, 255⟩]⟩ 255 255 255 30).data[0]? =
        some ⟨10, 20, 30, 255⟩) ∧
    (dist2 ⟨10, 20, 30, 255⟩ 255 255 255 < (30 : Int) ^ 2 →
      (extractTransparency ⟨1, 1, [⟨10, 20, 30, 255⟩]⟩ 255 255 255 30).data[0]? =
        some ⟨10, 20, 30, 0⟩) :=
  C4_extractTransparency_pixels ⟨1, 1, [⟨10, 20, 30, 255⟩]⟩ 255 255 255 30 0
    ⟨10, 20, 30, 255⟩ (by decide)

/-- The per-pixel transform is idempotent: the distance is computed from
R, G, B only, so zeroing alpha does not change the branch taken. -/
theorem removeBackgroundPixel_idem (tol tr tg tb : Nat) (p : Pixel) :
    removeBackgroundPixel tol tr tg tb (removeBackgroundPixel tol tr tg tb p) =
      removeBackgroundPixel tol tr tg tb p := by
  by_cases hd : dist2 p tr tg tb < (tol : Int) ^ 2
  · have h1 : removeBackgroundPixel tol tr tg tb p = { p with a := 0 } := by
      simp only [removeBackgroundPixel, if_pos hd]
    have hd0 : dist2 { p with a := 0 } tr tg tb < (tol : Int) ^ 2 := hd
    rw [h1]
    simp only [removeBackgroundPixel, if_pos hd0]
  · have h1 : removeBackgroundPixel tol tr tg tb p = p := by
      simp only [removeBackgroundPixel, if_neg hd]
    rw [h1, h1]

/-- C5: `extractTransparency` is idempotent for every image, target color
and tolerance: a second application with the same parameters is the
identity on the first application, because the recomputed distances use
RGB only and the first pass changed only alpha. -/
theorem C5_extractTransparency_idempotent (img : ImageBuffer) (tr tg tb tol : Nat) :
    extractTransparency (extractTransparency img tr tg tb tol) tr tg tb tol =
      extractTransparency img tr tg tb tol := by
  simp only [extractTransparency, List.map_map]
  exact congrArg _ (List.map_congr_left fun p _ => removeBackgroundPixel_idem tol tr tg tb p)

/-- C6: for positive input dimensions and positive `maxDimension`, the
output of `resizeImageDims` fits the bound, is unchanged when the input
already fits, and preserves the aspect within one pixel: one of the two
cross-multiplied inequality pairs says the floored side is within 1 of
the exact aspect-matching value. -/
theorem C6_resizeImage_bounds (w h maxD : Nat) (hw : 1 ≤ w) (hh : 1 ≤ h)
    (hm : 1 ≤ maxD) :
    max (resizeImageDims w h maxD).1 (resizeImageDims w h maxD).2 ≤ maxD ∧
    (max w h ≤ maxD → resizeImageDims w h maxD = (w, h)) ∧
    (((resizeImageDims w h maxD).2 * w ≤ h * (resizeImageDims w h maxD).1 ∧
        h * (resizeImageDims w h maxD).1 < (resizeImageDims w h maxD).2 * w + w) ∨
      ((resizeImageDims w h maxD).1 * h ≤ w * (resizeImageDims w h maxD).2 ∧
        w * (resizeImageDims w h maxD).2 < (resizeImageDims w h maxD).1 * h + h)) := by
  unfold resizeImageDims
  by_cases hhw : h < w
  · rw [if_pos hhw]
    by_cases hmw : maxD < w
    · rw [if_pos hmw]
      have hw0 : 0 < w := hw
      have hq : h * maxD / w ≤ maxD := by
        have h1 : h * maxD / w ≤ w * maxD / w :=
          Nat.div_le_div_right (Nat.mul_le_mul_right _ hhw.le)
        have h2 : w * maxD / w = maxD := Nat.mul_div_cancel_left _ hw0
        omega
      refine ⟨?_, fun hle => absurd (le_trans (le_max_left w h) hle) (by omega), ?_⟩
      · show max maxD (h * maxD / w) ≤ maxD
        omega
      left
      refine ⟨Nat.div_mul_le_self _ _, ?_⟩
      have hd := Nat.div_add_mod (h * maxD) w
      have hr : h * maxD % w < w := Nat.mod_lt _ hw0
      calc h * maxD = w * (h * maxD / w) + h * maxD % w := hd.symm
        _ < w * (h * maxD / w) + w := by omega
        _ = h * maxD / w * w + w := by ring
    · rw [if_neg hmw]
      refine ⟨?_, fun _ => rfl, Or.inl ⟨?_, ?_⟩⟩
      · show max w h ≤ maxD
        omega
      · show h * w ≤ h * w
        omega
      · show h * w < h * w + w
        omega
  · rw [if_neg hhw]
    by_cases hmh : maxD < h
    · rw [if_pos hmh]
      have hh0 : 0 < h := hh
      have hq : w * maxD / h ≤ maxD := by
        have h1 : w * maxD / h ≤ h * maxD / h :=
          Nat.div_le_div_right (Nat.mul_le_mul_right _ (by omega))
        have h2 : h * maxD / h = maxD := Nat.mul_div_cancel_left _ hh0
        omega
      refine ⟨?_, fun hle => absurd (le_trans (le_max_right w h) hle) (by omega), ?_⟩
      · show max (w * maxD / h) maxD ≤ maxD
        omega
      right
      refine ⟨Nat.div_mul_le_self _ _, ?_⟩
      have hd := Nat.div_add_mod (w * maxD) h
      have hr : w * maxD % h < h := Nat.mod_lt _ hh0
      calc w * maxD = h * (w * maxD / h) + w * maxD % h := hd.symm
        _ < h * (w * maxD / h) + h := by omega
        _ = w * maxD / h * h + h := by ring
    · rw [if_neg hmh]
      refine ⟨?_, fun _ => rfl, Or.inr ⟨?_, ?_⟩⟩
      · show max w h ≤ maxD
        omega
      · show w * h ≤ w * h
        omega
      · show w * h < w * h + h
        omega

/-- Witness for C6 at the scenario of the spec: a 2000 x 1000 image with
`maxDimension` 1024 resizes to 1024 x 512. -/
theorem C6_resizeImage_bounds_witness :
    max (resizeImageDims 2000 1000 1024).1 (resizeImageDims 2000 1000 1024).2 ≤ 1024 ∧
    (max 2000 1000 ≤ 1024 → resizeImageDims 2000 1000 1024 = (2000, 1000)) ∧
    (((resizeImageDims 2000 1000 1024).2 * 2000 ≤ 1000 * (resizeImageDims 2000 1000 1024).1 ∧
        1000 * (resizeImageDims 2000 1000 1024).1 <
          (resizeImageDims 2000 1000 1024).2 * 2000 + 2000) ∨
      ((resizeImageDims 2000 1000 1024).1 * 1000 ≤ 2000 * (resizeImageDims 2000 1000 1024).2 ∧
        2000 * (resizeImageDims 2000 1000 1024).2 <
          (resizeImageDims 2000 1000 1024).1 * 1000 + 1000)) :=
  C6_resizeImage_bounds 2000 1000 1024 (by decide) (by decide) (by decide)

/-! ## Edit-session helper lemmas -/

/-- Every single operation preserves the history invariant. -/
theorem historyInv_step (s : AppState) (op : Op) (h : historyInv s) :
    historyInv (step s op) := by
  obtain ⟨hne, hcur⟩ := h
  cases op with
  | select r =>
    cases r with
    | error e => exact ⟨hne, hcur⟩
    | ok b => exact ⟨by simp [step, handleImageSelect], by simp [step, handleImageSelect]⟩
  | embroidery g rb =>
    show historyInv (handleEmbroideryTransform s g rb).state
    unfold handleEmbroideryTransform
    split
    · split
      · exact ⟨hne, hcur⟩
      · split
        · exact ⟨hne, hcur⟩
        · split
          · exact ⟨hne, hcur⟩
          · exact ⟨by simp, by simp⟩
    · exact ⟨hne, hcur⟩
  | magicEdit r =>
    show historyInv (handleMagicEdit s r).state
    unfold handleMagicEdit
    split
    · split
      · exact ⟨hne, hcur⟩
      · split
        · exact ⟨hne, hcur⟩
        · exact ⟨by simp, by simp⟩
    · exact ⟨hne, hcur⟩
  | upscale r =>
    show historyInv (handleUpscale s r).state
    unfold handleUpscale
    split
    · split
      · exact ⟨hne, hcur⟩
      · split
        · exact ⟨hne, hcur⟩
        · exact ⟨by simp, by simp⟩
    · exact ⟨hne, hcur⟩
  | undo =>
    show historyInv (handleUndo s)
    unfold handleUndo
    split
    · rename_i hlen
      refine ⟨?_, rfl⟩
      apply List.ne_nil_of_length_pos
      rw [List.length_dropLast]
      omega
    · exact ⟨hne, hcur⟩
  | reset =>
    show historyInv (handleReset s)
    unfold handleReset
    split
    · split
      · exact ⟨hne, hcur⟩
      · exact ⟨by simp, by simp⟩
    · exact ⟨hne, hcur⟩
  | typePrompt t => exact ⟨hne, hcur⟩

/-- The history invariant is preserved by any operation sequence. -/
theorem historyInv_foldl (s : AppState) (ops : List Op) (h : historyInv s) :
    historyInv (List.foldl step s ops) := by
  induction ops generalizing s with
  | nil => exact h
  | cons op rest ih => exact ih _ (historyInv_step s op h)

/-- No operation other than the upload writes `originalImage` or
`mimeType`. -/
theorem step_preserves_upload_fields (s : AppState) (op : Op)
    (h : op.isSelect = false) :
    (step s op).originalImage = s.originalImage ∧
    (step s op).mimeType = s.mimeType := by
  cases op with
  | select r => simp [Op.isSelect] at h
  | embroidery g rb =>
    show ((handleEmbroideryTransform s g rb).state.originalImage = s.originalImage ∧
      (handleEmbroideryTransform s g rb).state.mimeType = s.mimeType)
    unfold handleEmbroideryTransform
    split
    · split
      · exact ⟨rfl, rfl⟩
      · split
        · exact ⟨rfl, rfl⟩
        · split
          · exact ⟨rfl, rfl⟩
          · exact ⟨rfl, rfl⟩
    · exact ⟨rfl, rfl⟩
  | magicEdit r =>
    show ((handleMagicEdit s r).state.originalImage = s.originalImage ∧
      (handleMagicEdit s r).state.mimeType = s.mimeType)
    unfold handleMagicEdit
    split
    · split
      · exact ⟨rfl, rfl⟩
      · split
        · exact ⟨rfl, rfl⟩
        · exact ⟨rfl, rfl⟩
    · exact ⟨rfl, rfl⟩
  | upscale r =>
    show ((handleUpscale s r).state.originalImage = s.originalImage ∧
      (handleUpscale s r).state.mimeType = s.mimeType)
    unfold handleUpscale
    split
    · split
      · exact ⟨rfl, rfl⟩
      · split
        · exact ⟨rfl, rfl⟩
        · exact ⟨rfl, rfl⟩
    · exact ⟨rfl, rfl⟩
  | undo =>
    show ((handleUndo s).originalImage = s.originalImage ∧
      (handleUndo s).mimeType = s.mimeType)
    unfold handleUndo
    split
    · exact ⟨rfl, rfl⟩
    · exact ⟨rfl, rfl⟩
  | reset =>
    show ((handleReset s).originalImage = s.originalImage ∧
      (handleReset s).mimeType = s.mimeType)
    unfold handleReset
    split
    · split
      · exact ⟨rfl, rfl⟩
      · exact ⟨rfl, rfl⟩
    · exact ⟨rfl, rfl⟩
  | typePrompt t => exact ⟨rfl, rfl⟩

/-- `originalImage` and `mimeType` are untouched by any sequence of
non-upload operations. -/
theorem foldl_preserves_upload_fields (s : AppState) (ops : List Op)
    (h : ∀ op ∈ ops, op.isSelect = false) :
    (List.foldl step s ops).originalImage = s.originalImage ∧
    (List.foldl step s ops).mimeType = s.mimeType := by
  induction ops generalizing s with
  | nil => exact ⟨rfl, rfl⟩
  | cons op rest ih =>
    have hop := h op (List.mem_cons_self op rest)
    have hrest : ∀ o ∈ rest, o.isSelect = false := fun o ho => h o (List.mem_cons_of_mem op ho)
    have h1 := step_preserves_upload_fields s op hop
    have h2 := ih (step s op) hrest
    exact ⟨h2.1.trans h1.1, h2.2.trans h1.2⟩

/-- Every generative call a handler dispatches carries the MIME type
stored in the session state at dispatch time. -/
theorem opGenCalls_mime (s : AppState) (op : Op) :
    (opGenCalls s op).all (fun c => c.2 == s.mimeType) = true := by
  cases op with
  | select r => rfl
  | undo => rfl
  | reset => rfl
  | typePrompt t => rfl
  | embroidery g rb =>
    show ((handleEmbroideryTransform s g rb).genCalls.all
      (fun c => c.2 == s.mimeType) = true)
    unfold handleEmbroideryTransform
    split
    · split
      · rfl
      · split
        · simp
        · split
          · simp
          · simp
    · rfl
  | magicEdit r =>
    show ((handleMagicEdit s r).genCalls.all (fun c => c.2 == s.mimeType) = true)
    unfold handleMagicEdit
    split
    · split
      · rfl
      · split
        · simp
        · simp
    · rfl
  | upscale r =>
    show ((handleUpscale s r).genCalls.all (fun c => c.2 == s.mimeType) = true)
    unfold handleUpscale
    split
    · split
      · rfl
      · split
        · simp
        · simp
    · rfl

/-! ## Edit-session claim theorems -/

/-- C1 counterexample: with the session mid-flight (status `processing`,
outside {idle, complete}), `handleEmbroideryTransform` is not rejected:
both sub-steps run and history is mutated, so the operation has side
effects. The handlers check only their own data guards, never the
status. -/
theorem C1_status_gate_counterexample :
    busyState.status ≠ ProcessingStatus.idle ∧
    busyState.status ≠ ProcessingStatus.complete ∧
    (handleEmbroideryTransform busyState (Except.ok "SU1H")
        (Except.ok (mkDataUrl "image/png" "VFJB"))).state.history ≠
      busyState.history := by
  decide

/-- C1 amended: the status gate is enforced by the rendered controls:
the embroidery and upscale buttons (and the undo button and magic-edit
input) are disabled exactly when status is outside {idle, complete}, and
the magic-edit submit button is disabled whenever the gate is closed.
The handlers themselves never check status; they reject without side
effects (state unchanged, no generative call) only when their own guard
fails, in particular whenever no current image exists. -/
theorem C1_status_gate_ui (s : AppState) (g rb e u : Except Unit String) :
    (gateClosed s = true ↔
      (s.status ≠ ProcessingStatus.idle ∧ s.status ≠ ProcessingStatus.complete)) ∧
    ((s.status ≠ ProcessingStatus.idle ∧ s.status ≠ ProcessingStatus.complete) →
      magicEditDisabled s = true) ∧
    (s.currentImage = none →
      (handleEmbroideryTransform s g rb).state = s ∧
      (handleEmbroideryTransform s g rb).genCalls = [] ∧
      (handleMagicEdit s e).state = s ∧
      (handleMagicEdit s e).genCalls = [] ∧
      (handleUpscale s u).state = s ∧
      (handleUpscale s u).genCalls = []) := by
  refine ⟨?_, ?_, ?_⟩
  · obtain ⟨st, o1, c1, p1, e1, m1, er1, h1⟩ := s
    cases st <;> simp [gateClosed]
  · intro hgate
    obtain ⟨st, o1, c1, p1, e1, m1, er1, h1⟩ := s
    cases st <;> simp_all [gateClosed, magicEditDisabled]
  · intro hnone
    unfold handleEmbroideryTransform handleMagicEdit handleUpscale
    rw [hnone]
    cases s.originalImage <;> exact ⟨rfl, rfl, rfl, rfl, rfl, rfl⟩

/-- Witness for C1 amended at the concrete gate-closed, imageless state. -/
theorem C1_status_gate_ui_witness :
    gateClosed noImageState = true ∧
    magicEditDisabled noImageState = true ∧
    (handleEmbroideryTransform noImageState (Except.ok "QQ") (Except.ok "Qg")).state =
      noImageState ∧
    (handleEmbroideryTransform noImageState (Except.ok "QQ") (Except.ok "Qg")).genCalls = [] ∧
    (handleMagicEdit noImageState (Except.ok "Qw")).state = noImageState ∧
    (handleMagicEdit noImageState (Except.ok "Qw")).genCalls = [] ∧
    (handleUpscale noImageState (Except.error ())).state = noImageState ∧
    (handleUpscale noImageState (Except.error ())).genCalls = [] :=
  have T := C1_status_gate_ui noImageState (Except.ok "QQ") (Except.ok "Qg")
    (Except.ok "Qw") (Except.error ())
  have hs : noImageState.status ≠ ProcessingStatus.idle ∧
      noImageState.status ≠ ProcessingStatus.complete := by decide
  have hrest := T.2.2 rfl
  ⟨T.1.mpr hs, T.2.1 hs, hrest.1, hrest.2.1, hrest.2.2.1, hrest.2.2.2.1,
    hrest.2.2.2.2.1, hrest.2.2.2.2.2⟩

/-- C2: when the guards of a run pass and a sub-step fails (the
generative call of any of the three operations, or the transparency
extraction of the embroidery flow), the final state has status `error`
and the human-readable message of that operation, and history and
`currentImage` are exactly as before the run (all-or-nothing). Each
handler is a total function of the pre-state and the sub-step outcomes,
reflecting the try/catch in the source: no exception escapes. -/
theorem C2_failure_all_or_nothing (s : AppState) (cur orig g : String)
    (rb : Except Unit String)
    (hc : s.currentImage = some cur) (hcne : cur ≠ "")
    (ho : s.originalImage = some orig) (hone : orig ≠ "")
    (hp : jsTrim s.editPrompt ≠ "") :
    ((handleEmbroideryTransform s (Except.error ()) rb).state.status =
        ProcessingStatus.error ∧
      (handleEmbroideryTransform s (Except.error ()) rb).state.errorMsg =
        some embroideryErrorMsg ∧
      (handleEmbroideryTransform s (Except.error ()) rb).state.history = s.history ∧
      (handleEmbroideryTransform s (Except.error ()) rb).state.currentImage =
        s.currentImage) ∧
    ((handleEmbroideryTransform s (Except.ok g) (Except.error ())).state.status =
        ProcessingStatus.error ∧
      (handleEmbroideryTransform s (Except.ok g) (Except.error ())).state.errorMsg =
        some embroideryErrorMsg ∧
      (handleEmbroideryTransform s (Except.ok g) (Except.error ())).state.history =
        s.history ∧
      (handleEmbroideryTransform s (Except.ok g) (Except.error ())).state.currentImage =
        s.currentImage) ∧
    ((handleMagicEdit s (Except.error ())).state.status = ProcessingStatus.error ∧
      (handleMagicEdit s (Except.error ())).state.errorMsg = some magicEditErrorMsg ∧
      (handleMagicEdit s (Except.error ())).state.history = s.history ∧
      (handleMagicEdit s (Except.error ())).state.currentImage = s.currentImage) ∧
    ((handleUpscale s (Except.error ())).state.status = ProcessingStatus.error ∧
      (handleUpscale s (Except.error ())).state.errorMsg = some upscaleErrorMsg ∧
      (handleUpscale s (Except.error ())).state.history = s.history ∧
      (handleUpscale s (Except.error ())).state.currentImage = s.currentImage) := by
  have hguard : ¬(cur = "" ∨ orig = "") := by
    rintro (h1 | h2)
    · exact hcne h1
    · exact hone h2
  have hguard2 : ¬(cur = "" ∨ jsTrim s.editPrompt = "") := by
    rintro (h1 | h2)
    · exact hcne h1
    · exact hp h2
  refine ⟨?_, ?_, ?_, ?_⟩
  · simp only [handleEmbroideryTransform, hc, ho]
    rw [if_neg hguard]
    exact ⟨rfl, rfl, rfl, rfl⟩
  · simp only [handleEmbroideryTransform, hc, ho]
    rw [if_neg hguard]
    exact ⟨rfl, rfl, rfl, rfl⟩
  · simp only [handleMagicEdit, hc]
    rw [if_neg hguard2]
    exact ⟨rfl, rfl, rfl, rfl⟩
  · simp only [handleUpscale, hc]
    rw [if_neg hcne]
    exact ⟨rfl, rfl, rfl, rfl⟩

/-- Witness for C2 at the concrete two-entry session. -/
theorem C2_failure_all_or_nothing_witness :
    ((handleEmbroideryTransform sessionState (Except.error ())
        (Except.ok "eA")).state.status = ProcessingStatus.error ∧
      (handleEmbroideryTransform sessionState (Except.error ())
        (Except.ok "eA")).state.errorMsg = some embroideryErrorMsg ∧
      (handleEmbroideryTransform sessionState (Except.error ())
        (Except.ok "eA")).state.history = sessionState.history ∧
      (handleEmbroideryTransform sessionState (Except.error ())
        (Except.ok "eA")).state.currentImage = sessionState.currentImage) ∧
    ((handleEmbroideryTransform sessionState (Except.ok "eQ")
        (Except.error ())).state.status = ProcessingStatus.error ∧
      (handleEmbroideryTransform sessionState (Except.ok "eQ")
        (Except.error ())).state.errorMsg = some embroideryErrorMsg ∧
      (handleEmbroideryTransform sessionState (Except.ok "eQ")
        (Except.error ())).state.history = sessionState.history ∧
      (handleEmbroideryTransform sessionState (Except.ok "eQ")
        (Except.error ())).state.currentImage = sessionState.currentImage) ∧
    ((handleMagicEdit sessionState (Except.error ())).state.status =
        ProcessingStatus.error ∧
      (handleMagicEdit sessionState (Except.error ())).state.errorMsg =
        some magicEditErrorMsg ∧
      (handleMagicEdit sessionState (Except.error ())).state.history =
        sessionState.history ∧
      (handleMagicEdit sessionState (Except.error ())).state.currentImage =
        sessionState.currentImage) ∧
    ((handleUpscale sessionState (Except.error ())).state.status =
        ProcessingStatus.error ∧
      (handleUpscale sessionState (Except.error ())).state.errorMsg =
        some upscaleErrorMsg ∧
      (handleUpscale sessionState (Except.error ())).state.history =
        sessionState.history ∧
      (handleUpscale sessionState (Except.error ())).state.currentImage =
        sessionState.currentImage) :=
  C2_failure_all_or_nothing sessionState pngUrl "QUJD" "eQ" (Except.ok "eA")
    (by decide) (by decide) (by decide) (by decide) (by decide)

/-- C3: from any successful upload, every sequence of operations keeps
`history` non-empty and `currentImage` equal to the last history entry:
the invariant holds at the seed and every handler preserves it. -/
theorem C3_history_invariant (s0 : AppState) (b : String) (ops : List Op) :
    historyInv (List.foldl step (handleImageSelect s0 (Except.ok b)) ops) := by
  apply historyInv_foldl
  exact ⟨by simp [handleImageSelect], by simp [handleImageSelect]⟩

/-- C7: the undo control is invocable exactly when `history.length > 1`
and the status is `idle` or `complete`; when more than one entry is
present the handler removes exactly the last entry, points
`currentImage` at the new last entry and leaves status untouched; with a
single entry it is a no-op; and for a non-empty history it always leaves
at least one entry. -/
theorem C7_undo (s : AppState) :
    (undoInvocable s = true ↔
      (1 < s.history.length ∧
        (s.status = ProcessingStatus.idle ∨ s.status = ProcessingStatus.complete))) ∧
    (1 < s.history.length →
      (handleUndo s).history = s.history.dropLast ∧
      (handleUndo s).status = s.status ∧
      (handleUndo s).currentImage = s.history.dropLast.getLast?) ∧
    (s.history.length = 1 → handleUndo s = s) ∧
    (1 ≤ s.history.length → 1 ≤ (handleUndo s).history.length) := by
  refine ⟨?_, ?_, ?_, ?_⟩
  · unfold undoInvocable gateClosed
    cases s.status <;> simp
  · intro hlen
    unfold handleUndo
    rw [if_pos hlen]
    exact ⟨rfl, rfl, rfl⟩
  · intro hlen
    unfold handleUndo
    rw [if_neg (by omega)]
  · intro hlen
    unfold handleUndo
    split
    · rename_i hl
      rw [List.length_dropLast]
      omega
    · exact hlen

/-- Witness for C7 at the concrete two-entry session with status
`complete`. -/
theorem C7_undo_witness :
    undoInvocable sessionState = true ∧
    (handleUndo sessionState).history = sessionState.history.dropLast ∧
    (handleUndo sessionState).status = sessionState.status ∧
    (handleUndo sessionState).currentImage = sessionState.history.dropLast.getLast? ∧
    1 ≤ (handleUndo sessionState).history.length :=
  have T := C7_undo sessionState
  have h2 := T.2.1 (by decide)
  ⟨T.1.mpr ⟨by decide, Or.inr (by decide)⟩, h2.1, h2.2.1, h2.2.2,
    T.2.2.2 (by decide)⟩

/-- C8: the reset control is invocable only when `history.length > 1`;
in any session reached from a successful upload by non-upload
operations, running `handleReset` replaces the whole history (and
`currentImage`) with the single pristine post-upload data URL, which is
also exactly the entry the upload seeded, because `originalImage` and
`mimeType` are never rewritten after the upload. -/
theorem C8_reset_pristine (s0 : AppState) (b : String) (hb : b ≠ "")
    (ops : List Op) (hops : ∀ op ∈ ops, op.isSelect = false) :
    (resetInvocable (List.foldl step (handleImageSelect s0 (Except.ok b)) ops) = true →
      1 < (List.foldl step (handleImageSelect s0 (Except.ok b)) ops).history.length) ∧
    (handleReset (List.foldl step (handleImageSelect s0 (Except.ok b)) ops)).history =
      [mkDataUrl resizeImageMimeType b] ∧
    (handleReset (List.foldl step (handleImageSelect s0 (Except.ok b)) ops)).currentImage =
      some (mkDataUrl resizeImageMimeType b) ∧
    (handleImageSelect s0 (Except.ok b)).history = [mkDataUrl resizeImageMimeType b] := by
  have hf := foldl_preserves_upload_fields (handleImageSelect s0 (Except.ok b)) ops hops
  have h1 : (List.foldl step (handleImageSelect s0 (Except.ok b)) ops).originalImage =
      some b := hf.1
  have h2 : (List.foldl step (handleImageSelect s0 (Except.ok b)) ops).mimeType =
      resizeImageMimeType := hf.2
  have hguard : ¬(b = "" ∨ resizeImageMimeType = "") := by
    rintro (hx | hx)
    · exact hb hx
    · exact absurd hx (by decide)
  refine ⟨?_, ?_, ?_, rfl⟩
  · intro hres
    simp only [resetInvocable, Bool.not_eq_true', Bool.or_eq_false_iff,
      decide_eq_false_iff_not, not_le] at hres
    exact hres.1
  · unfold handleReset
    rw [h1]
    simp only [h2]
    rw [if_neg hguard]
  · unfold handleReset
    rw [h1]
    simp only [h2]
    rw [if_neg hguard]

/-- Witness for C8: upload then one successful embroidery pass, then
reset restores exactly the seeded entry. -/
theorem C8_reset_pristine_witness :
    (resetInvocable (List.foldl step (handleImageSelect blankState (Except.ok "QUJD"))
        [Op.embroidery (Except.ok "RU1C") (Except.ok (mkDataUrl "image/png" "VFJB"))]) =
          true →
      1 < (List.foldl step (handleImageSelect blankState (Except.ok "QUJD"))
        [Op.embroidery (Except.ok "RU1C")
          (Except.ok (mkDataUrl "image/png" "VFJB"))]).history.length) ∧
    (handleReset (List.foldl step (handleImageSelect blankState (Except.ok "QUJD"))
        [Op.embroidery (Except.ok "RU1C")
          (Except.ok (mkDataUrl "image/png" "VFJB"))])).history =
      [mkDataUrl resizeImageMimeType "QUJD"] ∧
    (handleReset (List.foldl step (handleImageSelect blankState (Except.ok "QUJD"))
        [Op.embroidery (Except.ok "RU1C")
          (Except.ok (mkDataUrl "image/png" "VFJB"))])).currentImage =
      some (mkDataUrl resizeImageMimeType "QUJD") ∧
    (handleImageSelect blankState (Except.ok "QUJD")).history =
      [mkDataUrl resizeImageMimeType "QUJD"] :=
  C8_reset_pristine blankState "QUJD" (by decide)
    [Op.embroidery (Except.ok "RU1C") (Except.ok (mkDataUrl "image/png" "VFJB"))]
    (by decide)

/-- C9: a magic-edit run whose prompt trims to the empty string is
rejected before any status write: the state is returned unchanged and no
generative call is dispatched. -/
theorem C9_empty_prompt_rejected (s : AppState) (h : jsTrim s.editPrompt = "")
    (res : Except Unit String) :
    (handleMagicEdit s res).state = s ∧ (handleMagicEdit s res).genCalls = [] := by
  cases hc : s.currentImage with
  | none =>
    refine ⟨?_, ?_⟩ <;> simp only [handleMagicEdit, hc]
  | some cur =>
    simp only [handleMagicEdit, hc]
    rw [if_pos (Or.inr h)]
    exact ⟨rfl, rfl⟩

/-- Witness for C9 at a session whose prompt is whitespace only. -/
theorem C9_empty_prompt_rejected_witness :
    (handleMagicEdit emptyPromptState (Except.ok "RUZH")).state = emptyPromptState ∧
    (handleMagicEdit emptyPromptState (Except.ok "RUZH")).genCalls = [] :=
  C9_empty_prompt_rejected emptyPromptState (by decide) (Except.ok "RUZH")

/-- C10: the stored MIME type is written only by the upload: every
non-upload operation preserves it, so in every state reached from a
successful upload by non-upload operations it still equals the
`image/jpeg` that `resizeImage` returned, and every generative call
dispatched there carries exactly that MIME type, even when the current
history entry is the PNG data URL produced by the transparency pass. -/
theorem C10_mime_frozen (s : AppState) (op : Op) (hop : op.isSelect = false)
    (s0 : AppState) (b : String) (ops : List Op)
    (hops : ∀ o ∈ ops, o.isSelect = false) (op2 : Op) :
    (step s op).mimeType = s.mimeType ∧
    (handleImageSelect s0 (Except.ok b)).mimeType = resizeImageMimeType ∧
    (List.foldl step (handleImageSelect s0 (Except.ok b)) ops).mimeType =
      resizeImageMimeType ∧
    (opGenCalls (List.foldl step (handleImageSelect s0 (Except.ok b)) ops) op2).all
      (fun c => c.2 == resizeImageMimeType) = true := by
  have hf := foldl_preserves_upload_fields (handleImageSelect s0 (Except.ok b)) ops hops
  refine ⟨(step_preserves_upload_fields s op hop).2, rfl, hf.2, ?_⟩
  have hmime := opGenCalls_mime (List.foldl step (handleImageSelect s0 (Except.ok b)) ops) op2
  rw [hf.2] at hmime
  exact hmime

/-- Witness for C10: after upload and a successful embroidery pass
(current entry a PNG data URL), an upscale run still sends
`image/jpeg`. -/
theorem C10_mime_frozen_witness :
    (step sessionState Op.undo).mimeType = sessionState.mimeType ∧
    (handleImageSelect blankState (Except.ok "QUJD")).mimeType = resizeImageMimeType ∧
    (List.foldl step (handleImageSelect blankState (Except.ok "QUJD"))
      [Op.embroidery (Except.ok "RU1C")
        (Except.ok (mkDataUrl "image/png" "VFJB"))]).mimeType = resizeImageMimeType ∧
    (opGenCalls (List.foldl step (handleImageSelect blankState (Except.ok "QUJD"))
        [Op.embroidery (Except.ok "RU1C") (Except.ok (mkDataUrl "image/png" "VFJB"))])
      (Op.upscale (Except.ok "NEtG"))).all
      (fun c => c.2 == resizeImageMimeType) = true :=
  C10_mime_frozen sessionState Op.undo (by decide) blankState "QUJD"
    [Op.embroidery (Except.ok "RU1C") (Except.ok (mkDataUrl "image/png" "VFJB"))]
    (by decide) (Op.upscale (Except.ok "NEtG"))

end ThreadGenie
